import Mathlib

/-!
Shallow embedding of the per-connection turn orchestration and coalescing
engine of the voice-chat server (apps/api/src/index.ts), together with
proofs about the behaviour its specification claims.

The server is a single-threaded event loop.  Per-socket mutable maps are
modelled as explicit state, timers and awaited external calls as scheduled
loop tasks, and the streamed generation and synthesis loops as recursive
functions over the trace of values they observe at each suspension point.
-/

namespace VoiceChat

/-- Message role, from the `ConversationMessage` interface (`role: 'user' | 'assistant'`). -/
inductive Role where
  | user
  | assistant
deriving DecidableEq, Repr

/-- One conversation entry: `{ role, content, timestamp }`.  Timestamps are
modelled as naturals (milliseconds). -/
structure ConversationMessage where
  role : Role
  content : String
  timestamp : Nat
deriving DecidableEq, Repr

/-- Per-socket language preferences (`ConversationPreferences`): a BCP-47
code or the string `auto`, plus the language last detected by speech
recognition (absent until the first STT result). -/
structure ConversationPreferences where
  targetLanguage : String
  lastDetectedLanguage : Option String
deriving DecidableEq, Repr

/-- Last input modality for a socket (`type InputSource = 'voice' | 'text'`). -/
inductive InputSource where
  | voice
  | text
deriving DecidableEq, Repr

/-- In-flight abort controllers per socket (`InFlightControllers`); each
handle is modelled by an opaque-looking numeric id, `none` when absent. -/
structure InFlightControllers where
  llm : Option Nat
  stt : Option Nat
  tts : Option Nat
deriving DecidableEq, Repr

/-- The debounce state of `triggerChatGPTWithWait` (`ChatGPTCallState`). -/
structure ChatGPTCallState where
  isWaiting : Bool
  lastCallTime : Nat
  pendingInput : Option String
deriving DecidableEq, Repr

/-- Events the server emits to one socket (`socket.emit(...)`), with the
payload parts the claims talk about.  Audio chunk events carry the text
unit that was synthesized (the byte payload is irrelevant to the claims). -/
inductive ServerEvent where
  | messageReceived (text : String) (isVoice : Bool)
  | aiTyping (isTyping : Bool)
  | aiMessageStart
  | aiToken (tok : String)
  | aiMessageDone (text : String)
  | audioChunk (unit : String)
  | audioDone
  | aiResponse (text : String)
  | errorEvent (msg : String)
  | processingComplete
  | languageUpdated (language : String)
deriving DecidableEq, Repr

/-- One message of the ChatGPT request payload (`{ role, content }`). -/
structure ChatMsg where
  role : String
  content : String
deriving DecidableEq, Repr

/-- Whitespace as trimmed by `String.prototype.trim`. -/
def isSpaceChar (c : Char) : Bool :=
  c = ' ' || c = '\t' || c = '\n' || c = '\r'

/-- JavaScript's `.trim()`: strip leading and trailing whitespace. -/
def jsTrim (s : String) : String :=
  String.mk (((s.data.dropWhile isSpaceChar).reverse.dropWhile isSpaceChar).reverse)

/-! ## AudioAccumulator: the `audio-stream` buffer append and trim
(index.ts, `socket.on('audio-stream')`). -/

/-- An audio chunk is a byte sequence; only its length matters to trimming. -/
abbrev AudioChunk := List Nat

/-- The trim ceiling: `const maxBytes = 1_500_000`. -/
def maxBytes : Nat := 1500000

/-- `buffer.reduce((acc, b) => acc + b.length, 0)`. -/
def totalSize (buffer : List AudioChunk) : Nat :=
  buffer.foldl (fun acc b => acc + b.length) 0

/-- The trim loop: `while (total > maxBytes && buffer.length > 1) { buffer.shift() }`.
Whole chunks are removed from the front; a lone chunk is never removed. -/
def trimLoop : List AudioChunk → List AudioChunk
  | [] => []
  | [c] => [c]
  | c :: d :: rest =>
    if totalSize (c :: d :: rest) > maxBytes then trimLoop (d :: rest)
    else c :: d :: rest

/-- The `audio-stream` handler's buffer update: `buffer.push(chunk)` followed
by the trim loop. -/
def appendAudio (buffer : List AudioChunk) (chunk : AudioChunk) : List AudioChunk :=
  trimLoop (buffer ++ [chunk])

/-! ## Conversation history bound (`pruneHistory`). -/

/-- `pruneHistory`: keep only the most recent `maxMessages` entries
(`history.slice(history.length - maxMessages)`). -/
def pruneHistory (history : List ConversationMessage) (maxMessages : Nat) :
    List ConversationMessage :=
  if history.length ≤ maxMessages then history
  else history.drop (history.length - maxMessages)

/-- Appending one message and then pruning with the default bound of 20,
the discipline `processWithChatGPT` applies to the history it stores. -/
def appendAndPrune (h : List ConversationMessage) (m : ConversationMessage) :
    List ConversationMessage :=
  pruneHistory (h ++ [m]) 20

/-- The stored history after a sequence of bounded appends starting empty. -/
def historyAfterAppends (ms : List ConversationMessage) : List ConversationMessage :=
  ms.foldl appendAndPrune []

/-- One completed turn's history update: push the user message, push the
assistant reply, then prune to the bound (index.ts lines 509-619). -/
def completeTurnHistory (h : List ConversationMessage)
    (u a : ConversationMessage) : List ConversationMessage :=
  pruneHistory (h ++ [u, a]) 20

/-! ## InterruptController (`socket.on('interrupt')` and `abortInFlightControllers`). -/

/-- The per-socket state the interrupt handler touches: the conversation
version counter and the set of in-flight abort controllers. -/
structure InterruptState where
  version : Nat
  controllers : InFlightControllers
deriving DecidableEq, Repr

/-- `abortInFlightControllers`: abort every registered handle (an external
effect) and replace the set with the empty record. -/
def abortInFlightControllers (_c : InFlightControllers) : InFlightControllers :=
  { llm := none, stt := none, tts := none }

/-- The `interrupt` handler: increment the conversation version, abort and
clear the controllers, and emit a typing-off indicator. -/
def onInterrupt (s : InterruptState) : InterruptState × List ServerEvent :=
  ({ version := s.version + 1, controllers := abortInFlightControllers s.controllers },
   [ServerEvent.aiTyping false])

/-- The staleness observation made inside the generation loop:
`(conversationVersions.get(socketId) || 0) !== versionAtStart`. -/
def isStale (live captured : Nat) : Bool :=
  live != captured

/-! ## The generation-stream consumer (`for await (const part of stream)` in
`processWithChatGPT`).  Each loop iteration first reads the live version
(modelled as part of the observed trace, since an interrupt may land at any
prior suspension point) and aborts if it differs from the captured one;
otherwise it appends the part's token and emits it. -/

/-- Result of consuming the generation stream: the emitted events, the
accumulated reply text, and whether the loop ran to completion (`false`
means it returned early because the version had changed). -/
structure StreamConsume where
  events : List ServerEvent
  acc : String
  completed : Bool
deriving DecidableEq, Repr

/-- The token loop of `processWithChatGPT`.  A part is the pair of the live
version observed at that iteration and the token content
(`part?.choices?.[0]?.delta?.content || ''`). -/
def consumeStream (versionAtStart : Nat) :
    List (Nat × String) → String → StreamConsume
  | [], acc => ⟨[], acc, true⟩
  | (live, content) :: rest, acc =>
    if live ≠ versionAtStart then
      ⟨[ServerEvent.aiTyping false], acc, false⟩
    else if content = "" then
      consumeStream versionAtStart rest acc
    else
      let r := consumeStream versionAtStart rest (acc ++ content)
      ⟨ServerEvent.aiToken content :: r.events, r.acc, r.completed⟩

/-- The token events a fresh (never stale) prefix of parts produces. -/
def tokenEventsOf (parts : List (Nat × String)) : List ServerEvent :=
  parts.filterMap (fun p => if p.2 = "" then none else some (ServerEvent.aiToken p.2))

/-- The reply text accumulated over a list of parts (`aiResponse += token`
for each non-empty token). -/
def appendTokens (acc : String) (parts : List (Nat × String)) : String :=
  parts.foldl (fun a p => if p.2 = "" then a else a ++ p.2) acc

/-! ## Sentence splitting and the streaming-TTS loop (`streamTextToSpeech`). -/

/-- Terminal punctuation recognised by the splitting regex `[^.!?]+[.!?]?`. -/
def isTerminal (c : Char) : Bool :=
  c = '.' || c = '!' || c = '?'

/-- Global matching of `[^.!?]+[.!?]?`: each match is a maximal nonempty run
of non-terminators plus at most one following terminator; characters that
start no match (stray terminators between matches) are skipped.  `cur`
holds the reversed non-terminator run collected so far. -/
def splitAuxGo (cur : List Char) : List Char → List (List Char)
  | [] => if cur = [] then [] else [cur.reverse]
  | c :: cs =>
    if isTerminal c then
      if cur = [] then splitAuxGo [] cs
      else (cur.reverse ++ [c]) :: splitAuxGo [] cs
    else splitAuxGo (c :: cur) cs

/-- `text.match(/[^.!?]+[.!?]?/g) || [text]`: the sentence-like units of the
reply, falling back to the whole text when the regex finds no match. -/
def splitSentences (text : String) : List String :=
  let units := (splitAuxGo [] text.data).map (fun l => String.mk l)
  if units = [] then [text] else units

/-- The body of `streamTextToSpeech`'s loop.  `obs i` is the live version
the i-th iteration would read.  The source reads the live version into
`currentVersion` and immediately compares a second read of the same map
against it; both reads happen in the same synchronous tick (there is no
await between them), so they observe the same value — the comparison is
`obs i ≠ obs i`.  Failed synthesis yields a zero-length buffer; the chunk
event is emitted either way, so the event just records the text unit. -/
def ttsLoop (obs : Nat → Nat) : Nat → List String → List ServerEvent
  | _, [] => []
  | i, s :: rest =>
    if jsTrim s = "" then ttsLoop obs (i + 1) rest
    else if obs i ≠ obs i then []
    else ServerEvent.audioChunk (jsTrim s) :: ttsLoop obs (i + 1) rest

/-- `streamTextToSpeech`: split into sentence-like units, run the loop, then
emit the audio-done event. -/
def streamTextToSpeech (obs : Nat → Nat) (text : String) : List ServerEvent :=
  ttsLoop obs 0 (splitSentences text) ++ [ServerEvent.audioDone]

/-! ## Prompt construction inside `processWithChatGPT`. -/

/-- `roleString`: serialisation of a message role for the request payload. -/
def roleString : Role → String
  | Role.user => "user"
  | Role.assistant => "assistant"

/-- The effective target language:
`prefs.targetLanguage === 'auto' ? (prefs.lastDetectedLanguage || 'auto') : prefs.targetLanguage`.
An absent or empty detected language is falsy and yields `auto`. -/
def effectiveTargetLanguage (prefs : ConversationPreferences) : String :=
  if prefs.targetLanguage = "auto" then
    match prefs.lastDetectedLanguage with
    | none => "auto"
    | some l => if l = "" then "auto" else l
  else prefs.targetLanguage

/-- The language directive appended to the system prompt. -/
def languageDirective (target : String) : String :=
  if target = "auto" then "Respond in the same language as the user input."
  else "Respond in " ++ target ++ "."

/-- The message list sent to language generation: the system instruction
augmented with the language directive, then the whole current history
(which at that point already includes the just-recorded user message). -/
def buildMessages (systemPrompt : String) (prefs : ConversationPreferences)
    (history : List ConversationMessage) : List ChatMsg :=
  { role := "system",
    content := systemPrompt ++ "\n\n" ++ languageDirective (effectiveTargetLanguage prefs) } ::
    history.map (fun m => { role := roleString m.role, content := m.content })

/-- The directive the specification sentence describes, depending only on
the stored preference: the generic input-language instruction when the
preference is `auto`, else the preferred language by name.  This definition
follows the spec's words, for comparison with `buildMessages`. -/
def languageDirectiveClaim (prefs : ConversationPreferences) : String :=
  if prefs.targetLanguage = "auto" then "Respond in the same language as the user input."
  else "Respond in " ++ prefs.targetLanguage ++ "."

/-- The prompt the claim describes: system instruction plus the claim's
directive, followed by the conversation history.  Spec-side definition for
the refinement comparison. -/
def buildMessagesClaim (systemPrompt : String) (prefs : ConversationPreferences)
    (history : List ConversationMessage) : List ChatMsg :=
  { role := "system",
    content := systemPrompt ++ "\n\n" ++ languageDirectiveClaim prefs } ::
    history.map (fun m => { role := roleString m.role, content := m.content })

/-- The directive as the code actually computes it, written out by cases:
a named preference wins; under `auto` a detected language is named; only
under `auto` with no detected language (or a detected value that is empty
or the sentinel string `auto` itself) is the generic input-language
instruction used. -/
def languageDirectiveAmended (prefs : ConversationPreferences) : String :=
  if prefs.targetLanguage ≠ "auto" then "Respond in " ++ prefs.targetLanguage ++ "."
  else
    match prefs.lastDetectedLanguage with
    | some l =>
      if l ≠ "" ∧ l ≠ "auto" then "Respond in " ++ l ++ "."
      else "Respond in the same language as the user input."
    | none => "Respond in the same language as the user input."

/-- The prompt under the amended reading of the claim. -/
def buildMessagesAmended (systemPrompt : String) (prefs : ConversationPreferences)
    (history : List ConversationMessage) : List ChatMsg :=
  { role := "system",
    content := systemPrompt ++ "\n\n" ++ languageDirectiveAmended prefs } ::
    history.map (fun m => { role := roleString m.role, content := m.content })

/-! ## The whole turn (`processWithChatGPT`), as a function of the external
generation call's outcome. -/

/-- How the generation stream ends when no staleness abort happens first:
it either completes normally or throws (covering both a rejected
`openai.chat.completions.create` seen mid-iteration and an iterator error). -/
inductive StreamEnding where
  | completed
  | threw
deriving DecidableEq, Repr

/-- Outcome of the external generation call: the `create` call itself
rejects, or it yields a stream of parts (each paired with the live version
observed at that iteration) with the given ending. -/
inductive GenOutcome where
  | createThrew
  | streamed (parts : List (Nat × String)) (ending : StreamEnding)
deriving DecidableEq, Repr

/-- Inputs of one turn that are fixed before generation starts. -/
structure TurnInput where
  userInput : String
  ts : Nat
  ts2 : Nat
  isVoiceInput : Bool
deriving DecidableEq, Repr

/-- The user message a turn records before generation starts. -/
def userMessageOf (inp : TurnInput) : ConversationMessage :=
  { role := Role.user, content := inp.userInput, timestamp := inp.ts }

/-- Result of a turn: the stored history afterwards, the events emitted,
and the message list that was sent to the generation call. -/
structure TurnResult where
  history : List ConversationMessage
  events : List ServerEvent
  request : List ChatMsg
deriving DecidableEq, Repr

/-- `processWithChatGPT`: push the user message and store the history, emit
the received message and the typing indicator, call generation; on a
rejected call, catch, force typing off and emit the generic failure; on a
stream, consume it token by token (aborting silently if stale); on normal
completion push the assistant reply, prune, store, close the message and
stream the synthesized reply. -/
def processWithChatGPT (systemPrompt : String) (prefs : ConversationPreferences)
    (history : List ConversationMessage) (inp : TurnInput) (versionAtStart : Nat)
    (outcome : GenOutcome) (ttsObs : Nat → Nat) : TurnResult :=
  let history1 := history ++ [{ role := Role.user, content := inp.userInput, timestamp := inp.ts }]
  let baseEvents := [ServerEvent.messageReceived inp.userInput inp.isVoiceInput,
                     ServerEvent.aiTyping true]
  let messages := buildMessages systemPrompt prefs history1
  match outcome with
  | GenOutcome.createThrew =>
    { history := history1,
      events := baseEvents ++
        [ServerEvent.aiTyping false, ServerEvent.errorEvent "Failed to get AI response"],
      request := messages }
  | GenOutcome.streamed parts ending =>
    let c := consumeStream versionAtStart parts ""
    if c.completed = false then
      { history := history1,
        events := baseEvents ++ ServerEvent.aiMessageStart :: c.events,
        request := messages }
    else
      match ending with
      | StreamEnding.threw =>
        { history := history1,
          events := baseEvents ++ ServerEvent.aiMessageStart :: c.events ++
            [ServerEvent.aiTyping false, ServerEvent.errorEvent "Failed to get AI response"],
          request := messages }
      | StreamEnding.completed =>
        let aiResponse := c.acc
        let history2 := pruneHistory
          (history1 ++ [{ role := Role.assistant, content := aiResponse, timestamp := inp.ts2 }]) 20
        { history := history2,
          events := baseEvents ++ ServerEvent.aiMessageStart :: c.events ++
            [ServerEvent.aiTyping false, ServerEvent.aiMessageDone aiResponse] ++
            streamTextToSpeech ttsObs aiResponse ++ [ServerEvent.aiResponse aiResponse],
          request := messages }

/-! ## The CallCoalescer (`triggerChatGPTWithWait`) as a timed event loop.

The server is one cooperative event loop: the synchronous part of a handler
runs atomically; `setTimeout` and the `await` of the downstream call are the
only suspension points.  A configuration carries the `ChatGPTCallState`,
the outstanding scheduled continuations (the armed wait-window timer, and
the resumption point after the awaited downstream call), the not yet
delivered external trigger events, the log of downstream calls made (input
and start time), and the downstream calls currently in flight.  `dur` gives
each downstream call's duration. -/

/-- `trigger` mode: the `queueOnly` flag of `triggerChatGPTWithWait`. -/
inductive TriggerMode where
  | normal
  | queueOnly
deriving DecidableEq, Repr

/-- An external trigger event delivered to the loop at time `t`. -/
structure Stim where
  t : Nat
  input : String
  mode : TriggerMode
deriving DecidableEq, Repr

/-- A scheduled continuation: the wait-window timer callback, or the
resumption after the awaited `processWithChatGPT` call finishes. -/
inductive LoopTask where
  | timerFire
  | execFinish (input : String)
deriving DecidableEq, Repr

/-- The coalescer's wait window: `const waitTime = 400`. -/
def waitTime : Nat := 400

/-- A configuration of the session's event loop, restricted to the
coalescer. -/
structure SimConfig where
  st : ChatGPTCallState
  tasks : List (Nat × LoopTask)
  stimuli : List Stim
  calls : List (String × Nat)
  inFlight : List String
deriving DecidableEq, Repr

/-- The synchronous part of `triggerChatGPTWithWait(input, …, queueOnly)`
run at time `now`: trim and short-circuit empty input; in queue-only mode
store the pending input and arm the wait timer if idle; in normal mode
start the downstream call immediately when not waiting (the timer is armed
by the continuation after the awaited call finishes), else queue the input
last-write-wins. -/
def trigger (dur : String → Nat) (input : String) (mode : TriggerMode) (now : Nat)
    (cfg : SimConfig) : SimConfig :=
  let trimmedInput := jsTrim input
  if trimmedInput = "" then cfg
  else
    match mode with
    | TriggerMode.queueOnly =>
      if cfg.st.isWaiting then
        { cfg with st := { cfg.st with pendingInput := some trimmedInput } }
      else
        { cfg with
            st := { isWaiting := true, lastCallTime := now, pendingInput := some trimmedInput },
            tasks := cfg.tasks ++ [(now + waitTime, LoopTask.timerFire)] }
    | TriggerMode.normal =>
      if cfg.st.isWaiting then
        { cfg with st := { cfg.st with pendingInput := some trimmedInput } }
      else
        { cfg with
            st := { cfg.st with isWaiting := true, lastCallTime := now },
            calls := cfg.calls ++ [(trimmedInput, now)],
            inFlight := cfg.inFlight ++ [trimmedInput],
            tasks := cfg.tasks ++ [(now + dur trimmedInput, LoopTask.execFinish trimmedInput)] }

/-- Running a due continuation at time `now`.  When the awaited downstream
call finishes, the code arms the wait-window timer (`setTimeout` after the
`await`).  When the timer fires, it clears `isWaiting` and, if a pending
input is queued (JavaScript truthiness: the empty string would not replay),
clears it and re-invokes the trigger in normal mode. -/
def runTask (dur : String → Nat) (tk : LoopTask) (now : Nat) (cfg : SimConfig) : SimConfig :=
  match tk with
  | LoopTask.execFinish x =>
    { cfg with
        inFlight := cfg.inFlight.erase x,
        tasks := cfg.tasks ++ [(now + waitTime, LoopTask.timerFire)] }
  | LoopTask.timerFire =>
    let cfg1 := { cfg with st := { cfg.st with isWaiting := false } }
    match cfg1.st.pendingInput with
    | none => cfg1
    | some p =>
      if p = "" then cfg1
      else
        trigger dur p TriggerMode.normal now
          { cfg1 with st := { cfg1.st with pendingInput := none } }

/-- One event-loop step: run whichever of the earliest due continuation and
the earliest undelivered stimulus comes first (continuations win ties). -/
def simStep (dur : String → Nat) (cfg : SimConfig) : SimConfig :=
  match cfg.tasks, cfg.stimuli with
  | [], [] => cfg
  | (t, tk) :: ts, [] => runTask dur tk t { cfg with tasks := ts }
  | [], s :: ss => trigger dur s.input s.mode s.t { cfg with stimuli := ss }
  | (t, tk) :: ts, s :: ss =>
    if t ≤ s.t then runTask dur tk t { cfg with tasks := ts }
    else trigger dur s.input s.mode s.t { cfg with stimuli := ss }

/-- Run the event loop for a given number of steps. -/
def simRun (dur : String → Nat) : Nat → SimConfig → SimConfig
  | 0, cfg => cfg
  | Nat.succ n, cfg => simRun dur n (simStep dur cfg)

/-- The initial configuration for a fresh socket: the state initialised at
connection time, no continuations, and the scenario's stimuli. -/
def initConfig (stimuli : List Stim) : SimConfig :=
  { st := { isWaiting := false, lastCallTime := 0, pendingInput := none },
    tasks := [], stimuli := stimuli, calls := [], inFlight := [] }

/-- The mutual-exclusion invariant of the coalescer loop: the session is
idle, or exactly one downstream call is in flight with exactly its
resumption scheduled, or it is in the wait window with exactly the timer
scheduled.  `isWaiting` is set in the two latter phases. -/
def InvPhase (cfg : SimConfig) : Prop :=
  (cfg.st.isWaiting = false ∧ cfg.inFlight = [] ∧ cfg.tasks = []) ∨
  (cfg.st.isWaiting = true ∧
    ∃ x t, cfg.inFlight = [x] ∧ cfg.tasks = [(t, LoopTask.execFinish x)]) ∨
  (cfg.st.isWaiting = true ∧ cfg.inFlight = [] ∧ ∃ t, cfg.tasks = [(t, LoopTask.timerFire)])

/-! ## Session teardown (`socket.on('disconnect')`) and the per-socket maps. -/

/-- The slice of every per-socket map belonging to one socket id: `some`
when the map has an entry for the socket (for `Set`s, a `Bool`).  The
debounce timer entry holds the armed timer's handle. -/
structure SocketMaps where
  audioBuffer : Option (List AudioChunk)
  history : Option (List ConversationMessage)
  callState : Option ChatGPTCallState
  version : Option Nat
  prefs : Option ConversationPreferences
  lastInput : Option InputSource
  controllers : Option InFlightControllers
  debounceTimer : Option Nat
  sttInProgress : Bool
  processing : Bool
deriving DecidableEq, Repr

/-- The `disconnect` handler: it deletes the socket's audio buffer, history,
call state and version entries — and nothing else.  No `clearTimeout` is
called and the controllers, preferences, input-source, debounce-timer and
progress entries are left in place. -/
def onDisconnect (m : SocketMaps) : SocketMaps :=
  { m with audioBuffer := none, history := none, callState := none, version := none }

/-! ## Language preference updates (`socket.on('set-language')`). -/

/-- The `set-language` handler: `(data?.language || 'auto').trim()` — an
absent or empty (falsy) string becomes `auto` before trimming — then a
whitespace-only string (empty after trimming) also becomes `auto`; the
stored preference is echoed back in a `language-updated` event.  The
detected language is untouched. -/
def setLanguage (prefs : ConversationPreferences) (language : Option String) :
    ConversationPreferences × ServerEvent :=
  let raw := match language with
    | none => "auto"
    | some s => if s = "" then "auto" else s
  let lang := jsTrim raw
  let prefs1 := { prefs with targetLanguage := if lang = "" then "auto" else lang }
  (prefs1, ServerEvent.languageUpdated prefs1.targetLanguage)

/-! # Theorems -/

/-! ## AudioAccumulator lemmas -/

theorem trimLoop_suffix : ∀ l : List AudioChunk, trimLoop l <:+ l
  | [] => List.suffix_refl _
  | [c] => List.suffix_refl _
  | c :: d :: rest => by
    rw [trimLoop]
    split
    · exact (trimLoop_suffix (d :: rest)).trans (List.suffix_cons c (d :: rest))
    · exact List.suffix_refl _

theorem trimLoop_getLast : ∀ l : List AudioChunk, (trimLoop l).getLast? = l.getLast?
  | [] => rfl
  | [c] => rfl
  | c :: d :: rest => by
    rw [trimLoop]
    split
    · rw [trimLoop_getLast (d :: rest), List.getLast?_cons_cons]
    · rfl

theorem trimLoop_total :
    ∀ l : List AudioChunk, totalSize (trimLoop l) ≤ maxBytes ∨ (trimLoop l).length ≤ 1
  | [] => Or.inr (by simp [trimLoop])
  | [c] => Or.inr (by simp [trimLoop])
  | c :: d :: rest => by
    rw [trimLoop]
    split
    · exact trimLoop_total (d :: rest)
    · rename_i hle
      exact Or.inl (Nat.le_of_not_lt hle)

/-- C5, amended part: after every append, the result is a suffix of the
pushed buffer (whole chunks are only removed from the front), the
most-recently-appended chunk is always retained as the last chunk, and the
total size is within the ceiling unless the buffer consists solely of that
most recent chunk. -/
theorem c5_amended (buf : List AudioChunk) (c : AudioChunk) :
    appendAudio buf c <:+ buf ++ [c] ∧
    (appendAudio buf c).getLast? = some c ∧
    (totalSize (appendAudio buf c) ≤ maxBytes ∨ appendAudio buf c = [c]) := by
  have hsuf : appendAudio buf c <:+ buf ++ [c] := trimLoop_suffix (buf ++ [c])
  have hlast : (appendAudio buf c).getLast? = some c := by
    rw [appendAudio, trimLoop_getLast]
    simp
  refine ⟨hsuf, hlast, ?_⟩
  rcases trimLoop_total (buf ++ [c]) with h | h
  · exact Or.inl h
  · right
    have h2 : (appendAudio buf c).length ≤ 1 := h
    rcases hr : appendAudio buf c with _ | ⟨x, rest⟩
    · rw [hr] at hlast
      simp at hlast
    · rw [hr] at hlast h2
      rcases rest with _ | ⟨y, rest2⟩
      · simpa using hlast
      · simp at h2

theorem totalSize_singleton (c : AudioChunk) : totalSize [c] = 0 + c.length := rfl

/-- C5, counterexample: a single appended chunk larger than the ceiling is
kept whole, so immediately after that `append` the total buffered size
exceeds the configured ceiling, refuting the claim's "never exceeds"
conjunct. -/
theorem c5_counterexample :
    appendAudio [] (List.replicate 1500001 0) = [List.replicate 1500001 0] ∧
    maxBytes < totalSize (appendAudio [] (List.replicate 1500001 0)) := by
  have h : appendAudio [] (List.replicate 1500001 0) = [List.replicate 1500001 0] := by
    rw [appendAudio, List.nil_append, trimLoop]
  refine ⟨h, ?_⟩
  rw [h, totalSize_singleton, List.length_replicate, maxBytes]
  omega

/-! ## History pruning lemmas -/

theorem pruneHistory_eq_drop (l : List ConversationMessage) (n : Nat) :
    pruneHistory l n = l.drop (l.length - n) := by
  rw [pruneHistory]
  split
  · rename_i hle
    rw [Nat.sub_eq_zero_of_le hle, List.drop_zero]
  · rfl

theorem pruneHistory_length_le (l : List ConversationMessage) (n : Nat) :
    (pruneHistory l n).length ≤ n := by
  rw [pruneHistory_eq_drop, List.length_drop]
  omega

theorem foldl_appendAndPrune :
    ∀ (ms : List ConversationMessage) (h : List ConversationMessage), h.length ≤ 20 →
      ms.foldl appendAndPrune h = (h ++ ms).drop ((h ++ ms).length - 20)
  | [], h, hle => by
    simp only [List.foldl_nil, List.append_nil]
    rw [Nat.sub_eq_zero_of_le hle, List.drop_zero]
  | m :: rest, h, hle => by
    rw [List.foldl_cons]
    have hstep : appendAndPrune h m = (h ++ [m]).drop ((h ++ [m]).length - 20) := by
      rw [appendAndPrune, pruneHistory_eq_drop]
    have hlen : (appendAndPrune h m).length ≤ 20 := pruneHistory_length_le _ _
    rw [foldl_appendAndPrune rest (appendAndPrune h m) hlen, hstep]
    have hk : (h ++ [m]).length - 20 ≤ (h ++ [m]).length := Nat.sub_le _ _
    rw [← List.drop_append_of_le_length hk, List.drop_drop]
    have harr : ((h ++ [m]) ++ rest) = h ++ m :: rest := by simp
    rw [harr]
    congr 1
    simp only [List.length_drop, List.length_append, List.length_cons, List.length_nil]
    omega

/-- C6: the stored conversation history never exceeds the bound of 20 after
a turn completes, and bounded appending drops the oldest entries: after 25
messages have been appended the history is exactly the most recent 20, and
(for pairwise-distinct messages) none of the oldest 5 remains. -/
theorem c6_history_pruning (ms : List ConversationMessage) (h25 : ms.length = 25) :
    historyAfterAppends ms = ms.drop 5 ∧
    (historyAfterAppends ms).length = 20 ∧
    (∀ (h : List ConversationMessage) (u a : ConversationMessage),
      (completeTurnHistory h u a).length ≤ 20) ∧
    (ms.Nodup → ∀ m ∈ ms.take 5, m ∉ historyAfterAppends ms) := by
  have heq : historyAfterAppends ms = ms.drop 5 := by
    rw [historyAfterAppends, foldl_appendAndPrune ms [] (by simp), List.nil_append, h25]
  refine ⟨heq, ?_, ?_, ?_⟩
  · rw [heq, List.length_drop, h25]
  · intro h u a
    exact pruneHistory_length_le _ _
  · intro hnd m hm
    rw [heq]
    exact fun hb => List.disjoint_take_drop hnd (le_refl 5) hm hb

/-- C6 witness: 25 concrete distinct messages. -/
theorem c6_witness :
    historyAfterAppends ((List.range 25).map (fun i => ⟨Role.user, "", i⟩)) =
      ((List.range 25).map (fun i => ⟨Role.user, "", i⟩)).drop 5 ∧
    (historyAfterAppends ((List.range 25).map (fun i => ⟨Role.user, "", i⟩))).length = 20 := by
  have h := c6_history_pruning ((List.range 25).map (fun i => ⟨Role.user, "", i⟩)) (by decide)
  exact ⟨h.1, h.2.1⟩

/-! ## Session teardown -/

/-- C9: the `disconnect` handler deletes only the audio buffer, history,
call state and version entries; the armed partial-transcription debounce
timer is not cancelled and stays registered, the cancellation handles are
not cleared, and the preference entry also survives — contradicting the
required teardown. -/
theorem c9_disconnect_leaves_timer_and_handles :
    onDisconnect
        { audioBuffer := some [], history := some [], callState := some ⟨false, 0, none⟩,
          version := some 0, prefs := some ⟨"auto", none⟩, lastInput := some InputSource.text,
          controllers := some ⟨some 3, none, none⟩, debounceTimer := some 7,
          sttInProgress := false, processing := false } =
      { audioBuffer := none, history := none, callState := none,
        version := none, prefs := some ⟨"auto", none⟩, lastInput := some InputSource.text,
        controllers := some ⟨some 3, none, none⟩, debounceTimer := some 7,
        sttInProgress := false, processing := false } := by
  rfl

/-! ## Language preference updates -/

/-- C10: a missing, empty or whitespace-only language string stores `auto`;
any other string is stored trimmed; the `language-updated` event always
carries the stored preference; the last-detected language is unchanged. -/
theorem c10_set_language (prefs : ConversationPreferences) (language : Option String) :
    (setLanguage prefs language).2 =
      ServerEvent.languageUpdated (setLanguage prefs language).1.targetLanguage ∧
    (setLanguage prefs language).1.lastDetectedLanguage = prefs.lastDetectedLanguage ∧
    (language = none → (setLanguage prefs language).1.targetLanguage = "auto") ∧
    (∀ s, language = some s → jsTrim s = "" →
      (setLanguage prefs language).1.targetLanguage = "auto") ∧
    (∀ s, language = some s → jsTrim s ≠ "" →
      (setLanguage prefs language).1.targetLanguage = jsTrim s) := by
  refine ⟨rfl, rfl, ?_, ?_, ?_⟩
  · rintro rfl
    show (if jsTrim ("auto") = "" then "auto" else jsTrim ("auto")) = "auto"
    decide
  · rintro s rfl htrim
    by_cases hs : s = ""
    · subst hs
      show (if jsTrim ("auto") = "" then "auto" else jsTrim ("auto")) = "auto"
      decide
    · have hraw : (setLanguage prefs (some s)).1.targetLanguage =
          if jsTrim s = "" then "auto" else jsTrim s := by
        simp only [setLanguage, if_neg hs]
      rw [hraw, if_pos htrim]
  · rintro s rfl htrim
    have hs : s ≠ "" := by
      intro heq
      rw [heq] at htrim
      exact htrim (by decide)
    have hraw : (setLanguage prefs (some s)).1.targetLanguage =
        if jsTrim s = "" then "auto" else jsTrim s := by
      simp only [setLanguage, if_neg hs]
    rw [hraw, if_neg htrim]

/-- C10 witness: a padded language string is stored trimmed, leaving the
detected language untouched, and the event echoes the stored value. -/
theorem c10_witness :
    (setLanguage ⟨"auto", some "en"⟩ (some "  fr  ")).1.targetLanguage = jsTrim ("  fr  ") ∧
    (setLanguage ⟨"auto", some "en"⟩ (some "  fr  ")).1.lastDetectedLanguage = some "en" ∧
    (setLanguage ⟨"auto", some "en"⟩ (some "  fr  ")).2 =
      ServerEvent.languageUpdated
        ((setLanguage ⟨"auto", some "en"⟩ (some "  fr  ")).1.targetLanguage) := by
  have h := c10_set_language ⟨"auto", some "en"⟩ (some "  fr  ")
  exact ⟨h.2.2.2.2 _ rfl (by decide), h.2.1, h.1⟩

/-! ## Generation-stream consumer lemmas -/

theorem consumeStream_stale (v0 w : Nat) (hw : w ≠ v0) (tok : String)
    (post : List (Nat × String)) :
    ∀ (pre : List (Nat × String)) (acc : String), (∀ p ∈ pre, p.1 = v0) →
      consumeStream v0 (pre ++ (w, tok) :: post) acc =
        ⟨tokenEventsOf pre ++ [ServerEvent.aiTyping false], appendTokens acc pre, false⟩ := by
  intro pre
  induction pre with
  | nil =>
    intro acc _
    rw [List.nil_append, consumeStream, if_pos hw]
    rfl
  | cons p pre ih =>
    intro acc hpre
    obtain ⟨l, c⟩ := p
    have hrest : ∀ q ∈ pre, q.1 = v0 := fun q hq => hpre q (List.mem_cons_of_mem _ hq)
    have hl : l = v0 := hpre (l, c) (List.mem_cons_self _ _)
    subst hl
    rw [List.cons_append, consumeStream, if_neg (fun hx => hx rfl)]
    by_cases hc : c = ""
    · rw [if_pos hc, ih acc hrest]
      simp [tokenEventsOf, appendTokens, hc]
    · rw [if_neg hc]
      simp only [ih (acc ++ c) hrest]
      simp [tokenEventsOf, appendTokens, hc]

theorem consumeStream_fresh (v0 : Nat) :
    ∀ (parts : List (Nat × String)) (acc : String), (∀ p ∈ parts, p.1 = v0) →
      consumeStream v0 parts acc = ⟨tokenEventsOf parts, appendTokens acc parts, true⟩ := by
  intro parts
  induction parts with
  | nil =>
    intro acc _
    rfl
  | cons p parts ih =>
    intro acc hparts
    obtain ⟨l, c⟩ := p
    have hrest : ∀ q ∈ parts, q.1 = v0 := fun q hq => hparts q (List.mem_cons_of_mem _ hq)
    have hl : l = v0 := hparts (l, c) (List.mem_cons_self _ _)
    subst hl
    rw [consumeStream, if_neg (fun hx => hx rfl)]
    by_cases hc : c = ""
    · rw [if_pos hc, ih acc hrest]
      simp [tokenEventsOf, appendTokens, hc]
    · rw [if_neg hc]
      simp only [ih (acc ++ c) hrest]
      simp [tokenEventsOf, appendTokens, hc]

theorem tokenEventsOf_only_tokens (parts : List (Nat × String)) :
    ∀ e ∈ tokenEventsOf parts, ∃ t, e = ServerEvent.aiToken t := by
  intro e he
  rw [tokenEventsOf, List.mem_filterMap] at he
  obtain ⟨p, _, hif⟩ := he
  by_cases h : p.2 = ""
  · rw [if_pos h] at hif
    cases hif
  · rw [if_neg h] at hif
    exact ⟨p.2, (Option.some.inj hif).symm⟩

/-! ## C1: interrupt stops the generation-stream consumer -/

/-- C1: `onInterrupt` increments the session version by one and emits a
typing-off event; a generation-stream consumer that captured an earlier
version and next observes the post-interrupt version sees stale, emits the
typing-off event and stops: its emitted events are exactly its pre-interrupt
tokens followed by typing-off — no token event of the interrupted part or
any later part is emitted. -/
theorem c1_interrupt_stops_tokens (s : InterruptState) (v0 : Nat) (hv : v0 ≤ s.version)
    (pre post : List (Nat × String)) (tok acc : String)
    (hpre : ∀ p ∈ pre, p.1 = v0) :
    isStale (onInterrupt s).1.version v0 = true ∧
    (onInterrupt s).1.version = s.version + 1 ∧
    ServerEvent.aiTyping false ∈ (onInterrupt s).2 ∧
    consumeStream v0 (pre ++ ((onInterrupt s).1.version, tok) :: post) acc =
      ⟨tokenEventsOf pre ++ [ServerEvent.aiTyping false], appendTokens acc pre, false⟩ := by
  have hver : (onInterrupt s).1.version = s.version + 1 := rfl
  have hne : (onInterrupt s).1.version ≠ v0 := by
    rw [hver]
    omega
  refine ⟨?_, hver, ?_, ?_⟩
  · simp only [isStale, hver, bne_iff_ne, ne_eq]
    omega
  · exact List.mem_singleton.mpr rfl
  · exact consumeStream_stale v0 _ hne tok post pre acc hpre

/-- C1 witness: a consumer that captured version 0 is interrupted after one
token; it emits that token and typing-off, then stops. -/
theorem c1_witness :
    isStale (onInterrupt ⟨0, ⟨none, none, none⟩⟩).1.version 0 = true ∧
    (onInterrupt ⟨0, ⟨none, none, none⟩⟩).1.version = 0 + 1 ∧
    ServerEvent.aiTyping false ∈ (onInterrupt ⟨0, ⟨none, none, none⟩⟩).2 ∧
    consumeStream 0
        ([(0, "Hi")] ++ ((onInterrupt ⟨0, ⟨none, none, none⟩⟩).1.version, "x") :: []) ("") =
      ⟨tokenEventsOf [(0, "Hi")] ++ [ServerEvent.aiTyping false],
       appendTokens ("") [(0, "Hi")], false⟩ :=
  c1_interrupt_stops_tokens ⟨0, ⟨none, none, none⟩⟩ 0 (Nat.le_refl 0)
    [(0, "Hi")] [] ("x") ("") (by decide)

/-! ## C2: the synthesis loop's staleness check is inoperative -/

/-- C2 (refuted by the code): `streamTextToSpeech` reads the live version
into `currentVersion` and immediately compares a second same-tick read of
the same map entry against it, so the comparison never differs and the loop
never aborts: whatever the live version observations are — in particular
after an interrupt has changed the version — an audio chunk event is
emitted for every sentence-like unit. -/
theorem c2_tts_ignores_version_change (obs : Nat → Nat) :
    streamTextToSpeech obs ("One. Two.") =
      [ServerEvent.audioChunk ("One."), ServerEvent.audioChunk ("Two."),
       ServerEvent.audioDone] := by
  have hsplit : splitSentences ("One. Two.") = ["One.", " Two."] := rfl
  rw [streamTextToSpeech, hsplit, ttsLoop, if_neg (by decide), if_neg (fun h => h rfl),
    ttsLoop, if_neg (by decide), if_neg (fun h => h rfl), ttsLoop]
  rfl

/-! ## C7: the prompt sent to generation -/

theorem languageDirective_eq_amended (prefs : ConversationPreferences) :
    languageDirective (effectiveTargetLanguage prefs) = languageDirectiveAmended prefs := by
  obtain ⟨tl, det⟩ := prefs
  by_cases hauto : tl = "auto"
  · subst hauto
    cases det with
    | none => rfl
    | some l =>
      by_cases hl : l = ""
      · subst hl
        rfl
      · by_cases hla : l = "auto"
        · subst hla
          rfl
        · simp [effectiveTargetLanguage, languageDirectiveAmended, languageDirective, hl, hla]
  · simp [effectiveTargetLanguage, languageDirectiveAmended, languageDirective, hauto]

theorem buildMessages_eq_amended (systemPrompt : String) (prefs : ConversationPreferences)
    (history : List ConversationMessage) :
    buildMessages systemPrompt prefs history = buildMessagesAmended systemPrompt prefs history := by
  rw [buildMessages, buildMessagesAmended, languageDirective_eq_amended]

/-- C7, counterexample: with preference `auto` and a detected language, the
directive names the detected language instead of the claim's generic
input-language instruction, so the built prompt differs from the claimed
one. -/
theorem c7_counterexample :
    buildMessages ("SYS") ⟨"auto", some "fr"⟩ [] ≠
      buildMessagesClaim ("SYS") ⟨"auto", some "fr"⟩ [] := by
  decide

/-- C7, amended: the request sent to generation is the system instruction
augmented with the language directive — which names the preferred language
when the preference is not `auto`, names the detected input language when
the preference is `auto` and one was detected (unless that value is empty
or the sentinel `auto`), and otherwise instructs generically to respond in
the user's input language — followed by the full current conversation
history, i.e. the stored (pruned) history plus the just-recorded user
message. -/
theorem c7_amended (systemPrompt : String) (prefs : ConversationPreferences)
    (history : List ConversationMessage) (inp : TurnInput) (v : Nat)
    (outcome : GenOutcome) (ttsObs : Nat → Nat) :
    (processWithChatGPT systemPrompt prefs history inp v outcome ttsObs).request =
      buildMessagesAmended systemPrompt prefs
        (history ++ [{ role := Role.user, content := inp.userInput, timestamp := inp.ts }]) := by
  rw [← buildMessages_eq_amended]
  cases outcome with
  | createThrew => rfl
  | streamed parts ending =>
    cases ending with
    | threw =>
      simp only [processWithChatGPT]
      split <;> rfl
    | completed =>
      simp only [processWithChatGPT]
      split <;> rfl

/-! ## C8: a rejected generation call is contained -/

/-- C8: when the generation call rejects — either the `create` call itself
or the stream iterator after some fresh parts — the error is caught at this
step: the typing indicator is forced off and the generic failure
notification is emitted (they form the final two events); the stored history
is exactly the prior history plus the already-recorded user message — no
assistant entry and no duplicate entry is appended; and no message-done,
consolidated-reply or audio-chunk event is emitted. -/
theorem c8_error_handling (systemPrompt : String) (prefs : ConversationPreferences)
    (history : List ConversationMessage) (inp : TurnInput) (v : Nat)
    (outcome : GenOutcome) (ttsObs : Nat → Nat)
    (hfail : outcome = GenOutcome.createThrew ∨
      ∃ parts, (∀ p ∈ parts, p.1 = v) ∧
        outcome = GenOutcome.streamed parts StreamEnding.threw) :
    (processWithChatGPT systemPrompt prefs history inp v outcome ttsObs).history =
      history ++ [userMessageOf inp] ∧
    [ServerEvent.aiTyping false, ServerEvent.errorEvent "Failed to get AI response"] <:+
      (processWithChatGPT systemPrompt prefs history inp v outcome ttsObs).events ∧
    (∀ t, ServerEvent.aiMessageDone t ∉
      (processWithChatGPT systemPrompt prefs history inp v outcome ttsObs).events) ∧
    (∀ t, ServerEvent.aiResponse t ∉
      (processWithChatGPT systemPrompt prefs history inp v outcome ttsObs).events) ∧
    (∀ t, ServerEvent.audioChunk t ∉
      (processWithChatGPT systemPrompt prefs history inp v outcome ttsObs).events) := by
  rcases hfail with rfl | ⟨parts, hparts, rfl⟩
  · refine ⟨rfl, List.suffix_append _ _, ?_, ?_, ?_⟩
    · intro t ht
      simp [processWithChatGPT] at ht
    · intro t ht
      simp [processWithChatGPT] at ht
    · intro t ht
      simp [processWithChatGPT] at ht
  · have hc := consumeStream_fresh v parts ("") hparts
    have hev : (processWithChatGPT systemPrompt prefs history inp v
        (GenOutcome.streamed parts StreamEnding.threw) ttsObs).events =
        [ServerEvent.messageReceived inp.userInput inp.isVoiceInput,
          ServerEvent.aiTyping true] ++
          ServerEvent.aiMessageStart :: tokenEventsOf parts ++
          [ServerEvent.aiTyping false, ServerEvent.errorEvent "Failed to get AI response"] := by
      simp only [processWithChatGPT, hc]
      rfl
    have hhist : (processWithChatGPT systemPrompt prefs history inp v
        (GenOutcome.streamed parts StreamEnding.threw) ttsObs).history =
        history ++ [userMessageOf inp] := by
      simp only [processWithChatGPT, hc]
      rfl
    refine ⟨hhist, ?_, ?_, ?_, ?_⟩
    · rw [hev]
      exact List.suffix_append _ _
    · intro t ht
      rw [hev] at ht
      rcases List.mem_append.mp ht with h | h
      · rcases List.mem_append.mp h with h | h
        · simp at h
        · rcases List.mem_cons.mp h with h | h
          · simp at h
          · obtain ⟨u, hu⟩ := tokenEventsOf_only_tokens parts _ h
            simp at hu
      · simp at h
    · intro t ht
      rw [hev] at ht
      rcases List.mem_append.mp ht with h | h
      · rcases List.mem_append.mp h with h | h
        · simp at h
        · rcases List.mem_cons.mp h with h | h
          · simp at h
          · obtain ⟨u, hu⟩ := tokenEventsOf_only_tokens parts _ h
            simp at hu
      · simp at h
    · intro t ht
      rw [hev] at ht
      rcases List.mem_append.mp ht with h | h
      · rcases List.mem_append.mp h with h | h
        · simp at h
        · rcases List.mem_cons.mp h with h | h
          · simp at h
          · obtain ⟨u, hu⟩ := tokenEventsOf_only_tokens parts _ h
            simp at hu
      · simp at h

/-- C8 witness: a rejected `create` call on a fresh session records only the
user message and ends with typing-off plus the failure notification. -/
theorem c8_witness :
    (processWithChatGPT ("S") ⟨"auto", none⟩ [] ⟨"hi", 1, 2, false⟩ 0
        GenOutcome.createThrew (fun _ => 0)).history =
      [] ++ [userMessageOf ⟨"hi", 1, 2, false⟩] ∧
    [ServerEvent.aiTyping false, ServerEvent.errorEvent "Failed to get AI response"] <:+
      (processWithChatGPT ("S") ⟨"auto", none⟩ [] ⟨"hi", 1, 2, false⟩ 0
        GenOutcome.createThrew (fun _ => 0)).events := by
  have h := c8_error_handling ("S") ⟨"auto", none⟩ [] ⟨"hi", 1, 2, false⟩ 0
    GenOutcome.createThrew (fun _ => 0) (Or.inl rfl)
  exact ⟨h.1, h.2.1⟩

/-! ## Coalescer event-loop reduction lemmas -/

theorem trigger_empty (dur : String → Nat) (input : String) (mode : TriggerMode) (now : Nat)
    (cfg : SimConfig) (he : jsTrim input = "") :
    trigger dur input mode now cfg = cfg := by
  simp [trigger, he]

theorem trigger_normal_idle (dur : String → Nat) (input : String) (now : Nat) (cfg : SimConfig)
    (hne : jsTrim input ≠ "") (hw : cfg.st.isWaiting = false) :
    trigger dur input TriggerMode.normal now cfg =
      { cfg with
          st := { cfg.st with isWaiting := true, lastCallTime := now },
          calls := cfg.calls ++ [(jsTrim input, now)],
          inFlight := cfg.inFlight ++ [jsTrim input],
          tasks := cfg.tasks ++
            [(now + dur (jsTrim input), LoopTask.execFinish (jsTrim input))] } := by
  simp [trigger, hne, hw]

theorem trigger_queueOnly_idle (dur : String → Nat) (input : String) (now : Nat)
    (cfg : SimConfig) (hne : jsTrim input ≠ "") (hw : cfg.st.isWaiting = false) :
    trigger dur input TriggerMode.queueOnly now cfg =
      { cfg with
          st := { isWaiting := true, lastCallTime := now, pendingInput := some (jsTrim input) },
          tasks := cfg.tasks ++ [(now + waitTime, LoopTask.timerFire)] } := by
  simp [trigger, hne, hw]

theorem trigger_waiting (dur : String → Nat) (input : String) (mode : TriggerMode) (now : Nat)
    (cfg : SimConfig) (hne : jsTrim input ≠ "") (hw : cfg.st.isWaiting = true) :
    trigger dur input mode now cfg =
      { cfg with st := { cfg.st with pendingInput := some (jsTrim input) } } := by
  cases mode <;> simp [trigger, hne, hw]

theorem runTask_execFinish (dur : String → Nat) (x : String) (now : Nat) (cfg : SimConfig) :
    runTask dur (LoopTask.execFinish x) now cfg =
      { cfg with
          inFlight := cfg.inFlight.erase x,
          tasks := cfg.tasks ++ [(now + waitTime, LoopTask.timerFire)] } := rfl

theorem runTask_timerFire_none (dur : String → Nat) (now : Nat) (cfg : SimConfig)
    (hp : cfg.st.pendingInput = none) :
    runTask dur LoopTask.timerFire now cfg =
      { cfg with st := { cfg.st with isWaiting := false } } := by
  simp [runTask, hp]

theorem runTask_timerFire_some (dur : String → Nat) (now : Nat) (cfg : SimConfig) (p : String)
    (hp : cfg.st.pendingInput = some p) (hpe : p ≠ "") :
    runTask dur LoopTask.timerFire now cfg =
      trigger dur p TriggerMode.normal now
        { cfg with st := { cfg.st with isWaiting := false, pendingInput := none } } := by
  simp [runTask, hp, hpe]

theorem simStep_stim (dur : String → Nat) (cfg : SimConfig) (s : Stim) (ss : List Stim)
    (hT : cfg.tasks = []) (hS : cfg.stimuli = s :: ss) :
    simStep dur cfg = trigger dur s.input s.mode s.t { cfg with stimuli := ss } := by
  simp [simStep, hT, hS]

theorem simStep_task_only (dur : String → Nat) (cfg : SimConfig) (t : Nat) (tk : LoopTask)
    (ts : List (Nat × LoopTask)) (hT : cfg.tasks = (t, tk) :: ts) (hS : cfg.stimuli = []) :
    simStep dur cfg = runTask dur tk t { cfg with tasks := ts } := by
  simp [simStep, hT, hS]

theorem simStep_task_first (dur : String → Nat) (cfg : SimConfig) (t : Nat) (tk : LoopTask)
    (ts : List (Nat × LoopTask)) (s : Stim) (ss : List Stim)
    (hT : cfg.tasks = (t, tk) :: ts) (hS : cfg.stimuli = s :: ss) (hle : t ≤ s.t) :
    simStep dur cfg = runTask dur tk t { cfg with tasks := ts } := by
  simp [simStep, hT, hS, hle]

theorem simStep_stim_first (dur : String → Nat) (cfg : SimConfig) (t : Nat) (tk : LoopTask)
    (ts : List (Nat × LoopTask)) (s : Stim) (ss : List Stim)
    (hT : cfg.tasks = (t, tk) :: ts) (hS : cfg.stimuli = s :: ss) (hgt : ¬ t ≤ s.t) :
    simStep dur cfg = trigger dur s.input s.mode s.t { cfg with stimuli := ss } := by
  simp [simStep, hT, hS, hgt]

theorem simStep_drained (dur : String → Nat) (cfg : SimConfig)
    (hT : cfg.tasks = []) (hS : cfg.stimuli = []) : simStep dur cfg = cfg := by
  simp [simStep, hT, hS]

theorem simRun_drained (dur : String → Nat) :
    ∀ (n : Nat) (cfg : SimConfig), cfg.tasks = [] → cfg.stimuli = [] → simRun dur n cfg = cfg
  | 0, cfg, _, _ => rfl
  | Nat.succ n, cfg, hT, hS => by
    rw [simRun, simStep_drained dur cfg hT hS, simRun_drained dur n cfg hT hS]

theorem simRun_add (dur : String → Nat) :
    ∀ (a b : Nat) (cfg : SimConfig), simRun dur (a + b) cfg = simRun dur b (simRun dur a cfg)
  | 0, b, cfg => by rw [Nat.zero_add]; rfl
  | Nat.succ a, b, cfg => by
    rw [Nat.succ_add]
    show simRun dur (a + b) (simStep dur cfg) = simRun dur b (simRun dur a (simStep dur cfg))
    exact simRun_add dur a b (simStep dur cfg)

/-! ## The coalescer's mutual-exclusion invariant -/

theorem trigger_inv (dur : String → Nat) (input : String) (mode : TriggerMode) (now : Nat)
    (cfg : SimConfig) (hinv : InvPhase cfg) :
    InvPhase (trigger dur input mode now cfg) := by
  by_cases he : jsTrim input = ""
  · rw [trigger_empty dur input mode now cfg he]
    exact hinv
  · rcases hinv with ⟨h1, h2, h3⟩ | ⟨h1, x, t, h2, h3⟩ | ⟨h1, h2, t, h3⟩
    · cases mode with
      | normal =>
        rw [trigger_normal_idle dur input now cfg he h1]
        refine Or.inr (Or.inl ⟨rfl, jsTrim input, now + dur (jsTrim input), ?_, ?_⟩)
        · show cfg.inFlight ++ [jsTrim input] = [jsTrim input]
          rw [h2]
          rfl
        · show cfg.tasks ++
              [(now + dur (jsTrim input), LoopTask.execFinish (jsTrim input))] =
            [(now + dur (jsTrim input), LoopTask.execFinish (jsTrim input))]
          rw [h3]
          rfl
      | queueOnly =>
        rw [trigger_queueOnly_idle dur input now cfg he h1]
        refine Or.inr (Or.inr ⟨rfl, h2, now + waitTime, ?_⟩)
        show cfg.tasks ++ [(now + waitTime, LoopTask.timerFire)] =
          [(now + waitTime, LoopTask.timerFire)]
        rw [h3]
        rfl
    · rw [trigger_waiting dur input mode now cfg he h1]
      exact Or.inr (Or.inl ⟨h1, x, t, h2, h3⟩)
    · rw [trigger_waiting dur input mode now cfg he h1]
      exact Or.inr (Or.inr ⟨h1, h2, t, h3⟩)

theorem runTask_inv (dur : String → Nat) (t : Nat) (tk : LoopTask)
    (ts : List (Nat × LoopTask)) (cfg : SimConfig) (hinv : InvPhase cfg)
    (hT : cfg.tasks = (t, tk) :: ts) :
    InvPhase (runTask dur tk t { cfg with tasks := ts }) := by
  rcases hinv with ⟨h1, h2, h3⟩ | ⟨h1, x, u, h2, h3⟩ | ⟨h1, h2, u, h3⟩
  · rw [hT] at h3
    cases h3
  · rw [hT] at h3
    injection h3 with h4 h5
    injection h4 with ht htk
    subst ht
    subst htk
    subst h5
    rw [runTask_execFinish]
    refine Or.inr (Or.inr ⟨h1, ?_, t + waitTime, ?_⟩)
    · show cfg.inFlight.erase x = []
      rw [h2, List.erase_cons_head]
    · show ([] : List (Nat × LoopTask)) ++ [(t + waitTime, LoopTask.timerFire)] =
        [(t + waitTime, LoopTask.timerFire)]
      rfl
  · rw [hT] at h3
    injection h3 with h4 h5
    injection h4 with ht htk
    subst ht
    subst htk
    subst h5
    rcases hp : cfg.st.pendingInput with _ | p
    · rw [runTask_timerFire_none dur t { cfg with tasks := [] } hp]
      exact Or.inl ⟨rfl, h2, rfl⟩
    · by_cases hpe : p = ""
      · subst hpe
        have hr : runTask dur LoopTask.timerFire t { cfg with tasks := [] } =
            { cfg with tasks := [], st := { cfg.st with isWaiting := false } } := by
          simp [runTask, hp]
        rw [hr]
        exact Or.inl ⟨rfl, h2, rfl⟩
      · rw [runTask_timerFire_some dur t { cfg with tasks := [] } p hp hpe]
        exact trigger_inv dur p TriggerMode.normal t _ (Or.inl ⟨rfl, h2, rfl⟩)

theorem simStep_inv (dur : String → Nat) (cfg : SimConfig) (hinv : InvPhase cfg) :
    InvPhase (simStep dur cfg) := by
  rcases hT : cfg.tasks with _ | ⟨⟨t, tk⟩, ts⟩ <;> rcases hS : cfg.stimuli with _ | ⟨s, ss⟩
  · rw [simStep_drained dur cfg hT hS]
    exact hinv
  · rw [simStep_stim dur cfg s ss hT hS]
    exact trigger_inv dur s.input s.mode s.t _ hinv
  · rw [simStep_task_only dur cfg t tk ts hT hS]
    exact runTask_inv dur t tk ts cfg hinv hT
  · by_cases hle : t ≤ s.t
    · rw [simStep_task_first dur cfg t tk ts s ss hT hS hle]
      exact runTask_inv dur t tk ts cfg hinv hT
    · rw [simStep_stim_first dur cfg t tk ts s ss hT hS hle]
      exact trigger_inv dur s.input s.mode s.t _ hinv

theorem simRun_inv (dur : String → Nat) :
    ∀ (fuel : Nat) (cfg : SimConfig), InvPhase cfg → InvPhase (simRun dur fuel cfg)
  | 0, _, h => h
  | Nat.succ n, cfg, h => simRun_inv dur n (simStep dur cfg) (simStep_inv dur cfg h)

theorem initConfig_inv (stimuli : List Stim) : InvPhase (initConfig stimuli) :=
  Or.inl ⟨rfl, rfl, rfl⟩

/-! ## Coalescer scenario computations -/

theorem coalescerTail (dur : String → Nat) (C : String) (lct T : Nat)
    (cls : List (String × Nat)) (hC : jsTrim C = C) (hCne : C ≠ "") (n : Nat) :
    simRun dur (3 + n) ⟨⟨true, lct, some C⟩, [(T, LoopTask.timerFire)], [], cls, []⟩ =
      ⟨⟨false, T, none⟩, [], [], cls ++ [(C, T)], []⟩ := by
  have hne : jsTrim C ≠ "" := by
    rw [hC]
    exact hCne
  have e1 : simStep dur ⟨⟨true, lct, some C⟩, [(T, LoopTask.timerFire)], [], cls, []⟩ =
      ⟨⟨true, T, none⟩, [(T + dur C, LoopTask.execFinish C)], [], cls ++ [(C, T)], [C]⟩ := by
    rw [simStep_task_only dur _ T LoopTask.timerFire [] rfl rfl,
      runTask_timerFire_some dur T _ C rfl hCne,
      trigger_normal_idle dur C T _ hne rfl, hC]
    try rfl
  have e2 : simStep dur
      ⟨⟨true, T, none⟩, [(T + dur C, LoopTask.execFinish C)], [], cls ++ [(C, T)], [C]⟩ =
      ⟨⟨true, T, none⟩, [(T + dur C + waitTime, LoopTask.timerFire)], [],
        cls ++ [(C, T)], []⟩ := by
    rw [simStep_task_only dur _ (T + dur C) (LoopTask.execFinish C) [] rfl rfl,
      runTask_execFinish, List.erase_cons_head]
    try rfl
  have e3 : simStep dur
      ⟨⟨true, T, none⟩, [(T + dur C + waitTime, LoopTask.timerFire)], [],
        cls ++ [(C, T)], []⟩ =
      ⟨⟨false, T, none⟩, [], [], cls ++ [(C, T)], []⟩ := by
    rw [simStep_task_only dur _ (T + dur C + waitTime) LoopTask.timerFire [] rfl rfl,
      runTask_timerFire_none dur (T + dur C + waitTime) _ rfl]
    try rfl
  have h3 : simRun dur 3 ⟨⟨true, lct, some C⟩, [(T, LoopTask.timerFire)], [], cls, []⟩ =
      ⟨⟨false, T, none⟩, [], [], cls ++ [(C, T)], []⟩ := by
    have s1 : simRun dur 3 ⟨⟨true, lct, some C⟩, [(T, LoopTask.timerFire)], [], cls, []⟩ =
        simRun dur 2 (simStep dur
          ⟨⟨true, lct, some C⟩, [(T, LoopTask.timerFire)], [], cls, []⟩) := rfl
    rw [s1, e1]
    have s2 : simRun dur 2 (⟨⟨true, T, none⟩, [(T + dur C, LoopTask.execFinish C)], [],
          cls ++ [(C, T)], [C]⟩ : SimConfig) =
        simRun dur 1 (simStep dur ⟨⟨true, T, none⟩,
          [(T + dur C, LoopTask.execFinish C)], [], cls ++ [(C, T)], [C]⟩) := rfl
    rw [s2, e2]
    have s3 : simRun dur 1 (⟨⟨true, T, none⟩,
          [(T + dur C + waitTime, LoopTask.timerFire)], [], cls ++ [(C, T)], []⟩ :
          SimConfig) =
        simRun dur 0 (simStep dur ⟨⟨true, T, none⟩,
          [(T + dur C + waitTime, LoopTask.timerFire)], [], cls ++ [(C, T)], []⟩) := rfl
    rw [s3, e3]
    try rfl
  rw [simRun_add dur 3 n, h3]
  exact simRun_drained dur n _ rfl rfl

theorem c3Head1 (dur : String → Nat) (A B C : String) (t0 : Nat)
    (hA : jsTrim A = A) (hAne : A ≠ "") (hB : jsTrim B = B) (hBne : B ≠ "")
    (hC : jsTrim C = C) (hCne : C ≠ "") (hd : dur A ≤ 50) :
    simRun dur 4 (initConfig
        [⟨t0, A, TriggerMode.normal⟩, ⟨t0 + 50, B, TriggerMode.normal⟩,
         ⟨t0 + 100, C, TriggerMode.normal⟩]) =
      ⟨⟨true, t0, some C⟩, [(t0 + dur A + waitTime, LoopTask.timerFire)], [],
        [(A, t0)], []⟩ := by
  have hwt : waitTime = 400 := rfl
  have hAe : jsTrim A ≠ "" := by rw [hA]; exact hAne
  have hBe : jsTrim B ≠ "" := by rw [hB]; exact hBne
  have hCe : jsTrim C ≠ "" := by rw [hC]; exact hCne
  have e1 : simStep dur (initConfig
      [⟨t0, A, TriggerMode.normal⟩, ⟨t0 + 50, B, TriggerMode.normal⟩,
       ⟨t0 + 100, C, TriggerMode.normal⟩]) =
      ⟨⟨true, t0, none⟩, [(t0 + dur A, LoopTask.execFinish A)],
        [⟨t0 + 50, B, TriggerMode.normal⟩, ⟨t0 + 100, C, TriggerMode.normal⟩],
        [(A, t0)], [A]⟩ := by
    rw [simStep_stim dur _ ⟨t0, A, TriggerMode.normal⟩ _ rfl rfl,
      trigger_normal_idle dur A t0 _ hAe rfl, hA]
    try rfl
  have e2 : simStep dur (⟨⟨true, t0, none⟩, [(t0 + dur A, LoopTask.execFinish A)],
        [⟨t0 + 50, B, TriggerMode.normal⟩, ⟨t0 + 100, C, TriggerMode.normal⟩],
        [(A, t0)], [A]⟩ : SimConfig) =
      ⟨⟨true, t0, none⟩, [(t0 + dur A + waitTime, LoopTask.timerFire)],
        [⟨t0 + 50, B, TriggerMode.normal⟩, ⟨t0 + 100, C, TriggerMode.normal⟩],
        [(A, t0)], []⟩ := by
    rw [simStep_task_first dur _ (t0 + dur A) (LoopTask.execFinish A) []
        ⟨t0 + 50, B, TriggerMode.normal⟩ _ rfl rfl
        (by show t0 + dur A ≤ t0 + 50; omega),
      runTask_execFinish, List.erase_cons_head]
    try rfl
  have e3 : simStep dur (⟨⟨true, t0, none⟩,
        [(t0 + dur A + waitTime, LoopTask.timerFire)],
        [⟨t0 + 50, B, TriggerMode.normal⟩, ⟨t0 + 100, C, TriggerMode.normal⟩],
        [(A, t0)], []⟩ : SimConfig) =
      ⟨⟨true, t0, some B⟩, [(t0 + dur A + waitTime, LoopTask.timerFire)],
        [⟨t0 + 100, C, TriggerMode.normal⟩], [(A, t0)], []⟩ := by
    rw [simStep_stim_first dur _ (t0 + dur A + waitTime) LoopTask.timerFire []
        ⟨t0 + 50, B, TriggerMode.normal⟩ _ rfl rfl
        (by show ¬ t0 + dur A + waitTime ≤ t0 + 50; rw [hwt]; omega),
      trigger_waiting dur B TriggerMode.normal (t0 + 50) _ hBe rfl, hB]
    try rfl
  have e4 : simStep dur (⟨⟨true, t0, some B⟩,
        [(t0 + dur A + waitTime, LoopTask.timerFire)],
        [⟨t0 + 100, C, TriggerMode.normal⟩], [(A, t0)], []⟩ : SimConfig) =
      ⟨⟨true, t0, some C⟩, [(t0 + dur A + waitTime, LoopTask.timerFire)], [],
        [(A, t0)], []⟩ := by
    rw [simStep_stim_first dur _ (t0 + dur A + waitTime) LoopTask.timerFire []
        ⟨t0 + 100, C, TriggerMode.normal⟩ _ rfl rfl
        (by show ¬ t0 + dur A + waitTime ≤ t0 + 100; rw [hwt]; omega),
      trigger_waiting dur C TriggerMode.normal (t0 + 100) _ hCe rfl, hC]
    try rfl
  have s1 : simRun dur 4 (initConfig
      [⟨t0, A, TriggerMode.normal⟩, ⟨t0 + 50, B, TriggerMode.normal⟩,
       ⟨t0 + 100, C, TriggerMode.normal⟩]) =
      simRun dur 3 (simStep dur (initConfig
        [⟨t0, A, TriggerMode.normal⟩, ⟨t0 + 50, B, TriggerMode.normal⟩,
         ⟨t0 + 100, C, TriggerMode.normal⟩])) := rfl
  rw [s1, e1]
  have s2 : simRun dur 3 (⟨⟨true, t0, none⟩, [(t0 + dur A, LoopTask.execFinish A)],
        [⟨t0 + 50, B, TriggerMode.normal⟩, ⟨t0 + 100, C, TriggerMode.normal⟩],
        [(A, t0)], [A]⟩ : SimConfig) =
      simRun dur 2 (simStep dur ⟨⟨true, t0, none⟩,
        [(t0 + dur A, LoopTask.execFinish A)],
        [⟨t0 + 50, B, TriggerMode.normal⟩, ⟨t0 + 100, C, TriggerMode.normal⟩],
        [(A, t0)], [A]⟩) := rfl
  rw [s2, e2]
  have s3 : simRun dur 2 (⟨⟨true, t0, none⟩,
        [(t0 + dur A + waitTime, LoopTask.timerFire)],
        [⟨t0 + 50, B, TriggerMode.normal⟩, ⟨t0 + 100, C, TriggerMode.normal⟩],
        [(A, t0)], []⟩ : SimConfig) =
      simRun dur 1 (simStep dur ⟨⟨true, t0, none⟩,
        [(t0 + dur A + waitTime, LoopTask.timerFire)],
        [⟨t0 + 50, B, TriggerMode.normal⟩, ⟨t0 + 100, C, TriggerMode.normal⟩],
        [(A, t0)], []⟩) := rfl
  rw [s3, e3]
  have s4 : simRun dur 1 (⟨⟨true, t0, some B⟩,
        [(t0 + dur A + waitTime, LoopTask.timerFire)],
        [⟨t0 + 100, C, TriggerMode.normal⟩], [(A, t0)], []⟩ : SimConfig) =
      simRun dur 0 (simStep dur ⟨⟨true, t0, some B⟩,
        [(t0 + dur A + waitTime, LoopTask.timerFire)],
        [⟨t0 + 100, C, TriggerMode.normal⟩], [(A, t0)], []⟩) := rfl
  rw [s4, e4]
  try rfl

theorem c3Head2 (dur : String → Nat) (A B C : String) (t0 : Nat)
    (hA : jsTrim A = A) (hAne : A ≠ "") (hB : jsTrim B = B) (hBne : B ≠ "")
    (hC : jsTrim C = C) (hCne : C ≠ "") (h50 : 50 < dur A) (h100 : dur A ≤ 100) :
    simRun dur 4 (initConfig
        [⟨t0, A, TriggerMode.normal⟩, ⟨t0 + 50, B, TriggerMode.normal⟩,
         ⟨t0 + 100, C, TriggerMode.normal⟩]) =
      ⟨⟨true, t0, some C⟩, [(t0 + dur A + waitTime, LoopTask.timerFire)], [],
        [(A, t0)], []⟩ := by
  have hwt : waitTime = 400 := rfl
  have hAe : jsTrim A ≠ "" := by rw [hA]; exact hAne
  have hBe : jsTrim B ≠ "" := by rw [hB]; exact hBne
  have hCe : jsTrim C ≠ "" := by rw [hC]; exact hCne
  have e1 : simStep dur (initConfig
      [⟨t0, A, TriggerMode.normal⟩, ⟨t0 + 50, B, TriggerMode.normal⟩,
       ⟨t0 + 100, C, TriggerMode.normal⟩]) =
      ⟨⟨true, t0, none⟩, [(t0 + dur A, LoopTask.execFinish A)],
        [⟨t0 + 50, B, TriggerMode.normal⟩, ⟨t0 + 100, C, TriggerMode.normal⟩],
        [(A, t0)], [A]⟩ := by
    rw [simStep_stim dur _ ⟨t0, A, TriggerMode.normal⟩ _ rfl rfl,
      trigger_normal_idle dur A t0 _ hAe rfl, hA]
    try rfl
  have e2 : simStep dur (⟨⟨true, t0, none⟩, [(t0 + dur A, LoopTask.execFinish A)],
        [⟨t0 + 50, B, TriggerMode.normal⟩, ⟨t0 + 100, C, TriggerMode.normal⟩],
        [(A, t0)], [A]⟩ : SimConfig) =
      ⟨⟨true, t0, some B⟩, [(t0 + dur A, LoopTask.execFinish A)],
        [⟨t0 + 100, C, TriggerMode.normal⟩], [(A, t0)], [A]⟩ := by
    rw [simStep_stim_first dur _ (t0 + dur A) (LoopTask.execFinish A) []
        ⟨t0 + 50, B, TriggerMode.normal⟩ _ rfl rfl
        (by show ¬ t0 + dur A ≤ t0 + 50; omega),
      trigger_waiting dur B TriggerMode.normal (t0 + 50) _ hBe rfl, hB]
    try rfl
  have e3 : simStep dur (⟨⟨true, t0, some B⟩, [(t0 + dur A, LoopTask.execFinish A)],
        [⟨t0 + 100, C, TriggerMode.normal⟩], [(A, t0)], [A]⟩ : SimConfig) =
      ⟨⟨true, t0, some B⟩, [(t0 + dur A + waitTime, LoopTask.timerFire)],
        [⟨t0 + 100, C, TriggerMode.normal⟩], [(A, t0)], []⟩ := by
    rw [simStep_task_first dur _ (t0 + dur A) (LoopTask.execFinish A) []
        ⟨t0 + 100, C, TriggerMode.normal⟩ _ rfl rfl
        (by show t0 + dur A ≤ t0 + 100; omega),
      runTask_execFinish, List.erase_cons_head]
    try rfl
  have e4 : simStep dur (⟨⟨true, t0, some B⟩,
        [(t0 + dur A + waitTime, LoopTask.timerFire)],
        [⟨t0 + 100, C, TriggerMode.normal⟩], [(A, t0)], []⟩ : SimConfig) =
      ⟨⟨true, t0, some C⟩, [(t0 + dur A + waitTime, LoopTask.timerFire)], [],
        [(A, t0)], []⟩ := by
    rw [simStep_stim_first dur _ (t0 + dur A + waitTime) LoopTask.timerFire []
        ⟨t0 + 100, C, TriggerMode.normal⟩ _ rfl rfl
        (by show ¬ t0 + dur A + waitTime ≤ t0 + 100; rw [hwt]; omega),
      trigger_waiting dur C TriggerMode.normal (t0 + 100) _ hCe rfl, hC]
    try rfl
  have s1 : simRun dur 4 (initConfig
      [⟨t0, A, TriggerMode.normal⟩, ⟨t0 + 50, B, TriggerMode.normal⟩,
       ⟨t0 + 100, C, TriggerMode.normal⟩]) =
      simRun dur 3 (simStep dur (initConfig
        [⟨t0, A, TriggerMode.normal⟩, ⟨t0 + 50, B, TriggerMode.normal⟩,
         ⟨t0 + 100, C, TriggerMode.normal⟩])) := rfl
  rw [s1, e1]
  have s2 : simRun dur 3 (⟨⟨true, t0, none⟩, [(t0 + dur A, LoopTask.execFinish A)],
        [⟨t0 + 50, B, TriggerMode.normal⟩, ⟨t0 + 100, C, TriggerMode.normal⟩],
        [(A, t0)], [A]⟩ : SimConfig) =
      simRun dur 2 (simStep dur ⟨⟨true, t0, none⟩,
        [(t0 + dur A, LoopTask.execFinish A)],
        [⟨t0 + 50, B, TriggerMode.normal⟩, ⟨t0 + 100, C, TriggerMode.normal⟩],
        [(A, t0)], [A]⟩) := rfl
  rw [s2, e2]
  have s3 : simRun dur 2 (⟨⟨true, t0, some B⟩, [(t0 + dur A, LoopTask.execFinish A)],
        [⟨t0 + 100, C, TriggerMode.normal⟩], [(A, t0)], [A]⟩ : SimConfig) =
      simRun dur 1 (simStep dur ⟨⟨true, t0, some B⟩,
        [(t0 + dur A, LoopTask.execFinish A)],
        [⟨t0 + 100, C, TriggerMode.normal⟩], [(A, t0)], [A]⟩) := rfl
  rw [s3, e3]
  have s4 : simRun dur 1 (⟨⟨true, t0, some B⟩,
        [(t0 + dur A + waitTime, LoopTask.timerFire)],
        [⟨t0 + 100, C, TriggerMode.normal⟩], [(A, t0)], []⟩ : SimConfig) =
      simRun dur 0 (simStep dur ⟨⟨true, t0, some B⟩,
        [(t0 + dur A + waitTime, LoopTask.timerFire)],
        [⟨t0 + 100, C, TriggerMode.normal⟩], [(A, t0)], []⟩) := rfl
  rw [s4, e4]
  try rfl

theorem c3Head3 (dur : String → Nat) (A B C : String) (t0 : Nat)
    (hA : jsTrim A = A) (hAne : A ≠ "") (hB : jsTrim B = B) (hBne : B ≠ "")
    (hC : jsTrim C = C) (hCne : C ≠ "") (h100 : 100 < dur A) :
    simRun dur 4 (initConfig
        [⟨t0, A, TriggerMode.normal⟩, ⟨t0 + 50, B, TriggerMode.normal⟩,
         ⟨t0 + 100, C, TriggerMode.normal⟩]) =
      ⟨⟨true, t0, some C⟩, [(t0 + dur A + waitTime, LoopTask.timerFire)], [],
        [(A, t0)], []⟩ := by
  have hAe : jsTrim A ≠ "" := by rw [hA]; exact hAne
  have hBe : jsTrim B ≠ "" := by rw [hB]; exact hBne
  have hCe : jsTrim C ≠ "" := by rw [hC]; exact hCne
  have e1 : simStep dur (initConfig
      [⟨t0, A, TriggerMode.normal⟩, ⟨t0 + 50, B, TriggerMode.normal⟩,
       ⟨t0 + 100, C, TriggerMode.normal⟩]) =
      ⟨⟨true, t0, none⟩, [(t0 + dur A, LoopTask.execFinish A)],
        [⟨t0 + 50, B, TriggerMode.normal⟩, ⟨t0 + 100, C, TriggerMode.normal⟩],
        [(A, t0)], [A]⟩ := by
    rw [simStep_stim dur _ ⟨t0, A, TriggerMode.normal⟩ _ rfl rfl,
      trigger_normal_idle dur A t0 _ hAe rfl, hA]
    try rfl
  have e2 : simStep dur (⟨⟨true, t0, none⟩, [(t0 + dur A, LoopTask.execFinish A)],
        [⟨t0 + 50, B, TriggerMode.normal⟩, ⟨t0 + 100, C, TriggerMode.normal⟩],
        [(A, t0)], [A]⟩ : SimConfig) =
      ⟨⟨true, t0, some B⟩, [(t0 + dur A, LoopTask.execFinish A)],
        [⟨t0 + 100, C, TriggerMode.normal⟩], [(A, t0)], [A]⟩ := by
    rw [simStep_stim_first dur _ (t0 + dur A) (LoopTask.execFinish A) []
        ⟨t0 + 50, B, TriggerMode.normal⟩ _ rfl rfl
        (by show ¬ t0 + dur A ≤ t0 + 50; omega),
      trigger_waiting dur B TriggerMode.normal (t0 + 50) _ hBe rfl, hB]
    try rfl
  have e3 : simStep dur (⟨⟨true, t0, some B⟩, [(t0 + dur A, LoopTask.execFinish A)],
        [⟨t0 + 100, C, TriggerMode.normal⟩], [(A, t0)], [A]⟩ : SimConfig) =
      ⟨⟨true, t0, some C⟩, [(t0 + dur A, LoopTask.execFinish A)], [],
        [(A, t0)], [A]⟩ := by
    rw [simStep_stim_first dur _ (t0 + dur A) (LoopTask.execFinish A) []
        ⟨t0 + 100, C, TriggerMode.normal⟩ _ rfl rfl
        (by show ¬ t0 + dur A ≤ t0 + 100; omega),
      trigger_waiting dur C TriggerMode.normal (t0 + 100) _ hCe rfl, hC]
    try rfl
  have e4 : simStep dur (⟨⟨true, t0, some C⟩, [(t0 + dur A, LoopTask.execFinish A)],
        [], [(A, t0)], [A]⟩ : SimConfig) =
      ⟨⟨true, t0, some C⟩, [(t0 + dur A + waitTime, LoopTask.timerFire)], [],
        [(A, t0)], []⟩ := by
    rw [simStep_task_only dur _ (t0 + dur A) (LoopTask.execFinish A) [] rfl rfl,
      runTask_execFinish, List.erase_cons_head]
    try rfl
  have s1 : simRun dur 4 (initConfig
      [⟨t0, A, TriggerMode.normal⟩, ⟨t0 + 50, B, TriggerMode.normal⟩,
       ⟨t0 + 100, C, TriggerMode.normal⟩]) =
      simRun dur 3 (simStep dur (initConfig
        [⟨t0, A, TriggerMode.normal⟩, ⟨t0 + 50, B, TriggerMode.normal⟩,
         ⟨t0 + 100, C, TriggerMode.normal⟩])) := rfl
  rw [s1, e1]
  have s2 : simRun dur 3 (⟨⟨true, t0, none⟩, [(t0 + dur A, LoopTask.execFinish A)],
        [⟨t0 + 50, B, TriggerMode.normal⟩, ⟨t0 + 100, C, TriggerMode.normal⟩],
        [(A, t0)], [A]⟩ : SimConfig) =
      simRun dur 2 (simStep dur ⟨⟨true, t0, none⟩,
        [(t0 + dur A, LoopTask.execFinish A)],
        [⟨t0 + 50, B, TriggerMode.normal⟩, ⟨t0 + 100, C, TriggerMode.normal⟩],
        [(A, t0)], [A]⟩) := rfl
  rw [s2, e2]
  have s3 : simRun dur 2 (⟨⟨true, t0, some B⟩, [(t0 + dur A, LoopTask.execFinish A)],
        [⟨t0 + 100, C, TriggerMode.normal⟩], [(A, t0)], [A]⟩ : SimConfig) =
      simRun dur 1 (simStep dur ⟨⟨true, t0, some B⟩,
        [(t0 + dur A, LoopTask.execFinish A)],
        [⟨t0 + 100, C, TriggerMode.normal⟩], [(A, t0)], [A]⟩) := rfl
  rw [s3, e3]
  have s4 : simRun dur 1 (⟨⟨true, t0, some C⟩, [(t0 + dur A, LoopTask.execFinish A)],
        [], [(A, t0)], [A]⟩ : SimConfig) =
      simRun dur 0 (simStep dur ⟨⟨true, t0, some C⟩,
        [(t0 + dur A, LoopTask.execFinish A)], [], [(A, t0)], [A]⟩) := rfl
  rw [s4, e4]
  try rfl

/-! ## C3: the three-trigger coalescing scenario -/

/-- C3: for any three normal-mode trigger calls with (already trimmed,
nonempty) inputs A, B, C at times t0, t0+50ms and t0+100ms, and any
duration of the downstream call, exactly two downstream calls are made:
one synchronously with input A at t0, and one with input C when the wait
window fires after the in-flight call completes — which is at or after
t0 + W.  B is superseded by last-write-wins coalescing and never invoked. -/
theorem c3_coalescer_scenario (A B C : String) (t0 : Nat) (dur : String → Nat)
    (hA : jsTrim A = A) (hAne : A ≠ "") (hB : jsTrim B = B) (hBne : B ≠ "")
    (hC : jsTrim C = C) (hCne : C ≠ "") (n : Nat) :
    (simRun dur (7 + n) (initConfig
        [⟨t0, A, TriggerMode.normal⟩, ⟨t0 + 50, B, TriggerMode.normal⟩,
         ⟨t0 + 100, C, TriggerMode.normal⟩])).calls =
      [(A, t0), (C, t0 + dur A + waitTime)] ∧
    t0 + waitTime ≤ t0 + dur A + waitTime := by
  have hhead : simRun dur 4 (initConfig
      [⟨t0, A, TriggerMode.normal⟩, ⟨t0 + 50, B, TriggerMode.normal⟩,
       ⟨t0 + 100, C, TriggerMode.normal⟩]) =
      ⟨⟨true, t0, some C⟩, [(t0 + dur A + waitTime, LoopTask.timerFire)], [],
        [(A, t0)], []⟩ := by
    rcases le_or_lt (dur A) 50 with h50 | h50
    · exact c3Head1 dur A B C t0 hA hAne hB hBne hC hCne h50
    · rcases le_or_lt (dur A) 100 with h100 | h100
      · exact c3Head2 dur A B C t0 hA hAne hB hBne hC hCne h50 h100
      · exact c3Head3 dur A B C t0 hA hAne hB hBne hC hCne h100
  constructor
  · rw [show 7 + n = 4 + (3 + n) from by omega, simRun_add dur 4 (3 + n), hhead,
      coalescerTail dur C t0 (t0 + dur A + waitTime) [(A, t0)] hC hCne n]
    rfl
  · omega

/-- C3 witness: inputs a, b, c with an instantaneous downstream call;
exactly the calls (a, t0) and (c, t0+400) occur. -/
theorem c3_witness :
    (simRun (fun _ => 0) (7 + 0) (initConfig
        [⟨0, "a", TriggerMode.normal⟩, ⟨0 + 50, "b", TriggerMode.normal⟩,
         ⟨0 + 100, "c", TriggerMode.normal⟩])).calls =
      [("a", 0), ("c", 0 + 0 + waitTime)] ∧
    0 + waitTime ≤ 0 + 0 + waitTime :=
  c3_coalescer_scenario ("a") ("b") ("c") 0 (fun _ => 0) (by decide) (by decide)
    (by decide) (by decide) (by decide) (by decide) 0

/-! ## C4: mutual exclusion holds, the latency bound does not -/

/-- C4, amended: (1) for every interleaving of trigger stimuli (both modes,
any times, any inputs, any downstream durations), at most one downstream
call is in flight at any time; (2) a pending input queued while a call is
in flight is processed when the wait-window timer fires, which is armed
only after the in-flight call completes — at completion-time + W, not
within W of being queued. -/
theorem c4_amended (A B : String) (t0 δ : Nat) (dur : String → Nat)
    (hA : jsTrim A = A) (hAne : A ≠ "") (hB : jsTrim B = B) (hBne : B ≠ "")
    (hδ : δ < dur A) (n : Nat) :
    (∀ (stimuli : List Stim) (dur2 : String → Nat) (fuel : Nat),
      (simRun dur2 fuel (initConfig stimuli)).inFlight.length ≤ 1) ∧
    (simRun dur (6 + n) (initConfig
        [⟨t0, A, TriggerMode.normal⟩, ⟨t0 + δ, B, TriggerMode.normal⟩])).calls =
      [(A, t0), (B, t0 + dur A + waitTime)] := by
  have hAe : jsTrim A ≠ "" := by rw [hA]; exact hAne
  have hBe : jsTrim B ≠ "" := by rw [hB]; exact hBne
  constructor
  · intro stimuli dur2 fuel
    rcases simRun_inv dur2 fuel (initConfig stimuli) (initConfig_inv stimuli) with
      ⟨_, h2, _⟩ | ⟨_, x, t, h2, _⟩ | ⟨_, h2, _⟩ <;> rw [h2] <;> simp
  · have e1 : simStep dur (initConfig
        [⟨t0, A, TriggerMode.normal⟩, ⟨t0 + δ, B, TriggerMode.normal⟩]) =
        ⟨⟨true, t0, none⟩, [(t0 + dur A, LoopTask.execFinish A)],
          [⟨t0 + δ, B, TriggerMode.normal⟩], [(A, t0)], [A]⟩ := by
      rw [simStep_stim dur _ ⟨t0, A, TriggerMode.normal⟩ _ rfl rfl,
        trigger_normal_idle dur A t0 _ hAe rfl, hA]
      try rfl
    have e2 : simStep dur (⟨⟨true, t0, none⟩, [(t0 + dur A, LoopTask.execFinish A)],
          [⟨t0 + δ, B, TriggerMode.normal⟩], [(A, t0)], [A]⟩ : SimConfig) =
        ⟨⟨true, t0, some B⟩, [(t0 + dur A, LoopTask.execFinish A)], [],
          [(A, t0)], [A]⟩ := by
      rw [simStep_stim_first dur _ (t0 + dur A) (LoopTask.execFinish A) []
          ⟨t0 + δ, B, TriggerMode.normal⟩ _ rfl rfl
          (by show ¬ t0 + dur A ≤ t0 + δ; omega),
        trigger_waiting dur B TriggerMode.normal (t0 + δ) _ hBe rfl, hB]
      try rfl
    have e3 : simStep dur (⟨⟨true, t0, some B⟩,
          [(t0 + dur A, LoopTask.execFinish A)], [], [(A, t0)], [A]⟩ : SimConfig) =
        ⟨⟨true, t0, some B⟩, [(t0 + dur A + waitTime, LoopTask.timerFire)], [],
          [(A, t0)], []⟩ := by
      rw [simStep_task_only dur _ (t0 + dur A) (LoopTask.execFinish A) [] rfl rfl,
        runTask_execFinish, List.erase_cons_head]
      try rfl
    have hhead : simRun dur 3 (initConfig
        [⟨t0, A, TriggerMode.normal⟩, ⟨t0 + δ, B, TriggerMode.normal⟩]) =
        ⟨⟨true, t0, some B⟩, [(t0 + dur A + waitTime, LoopTask.timerFire)], [],
          [(A, t0)], []⟩ := by
      have s1 : simRun dur 3 (initConfig
          [⟨t0, A, TriggerMode.normal⟩, ⟨t0 + δ, B, TriggerMode.normal⟩]) =
          simRun dur 2 (simStep dur (initConfig
            [⟨t0, A, TriggerMode.normal⟩, ⟨t0 + δ, B, TriggerMode.normal⟩])) := rfl
      rw [s1, e1]
      have s2 : simRun dur 2 (⟨⟨true, t0, none⟩,
            [(t0 + dur A, LoopTask.execFinish A)],
            [⟨t0 + δ, B, TriggerMode.normal⟩], [(A, t0)], [A]⟩ : SimConfig) =
          simRun dur 1 (simStep dur ⟨⟨true, t0, none⟩,
            [(t0 + dur A, LoopTask.execFinish A)],
            [⟨t0 + δ, B, TriggerMode.normal⟩], [(A, t0)], [A]⟩) := rfl
      rw [s2, e2]
      have s3 : simRun dur 1 (⟨⟨true, t0, some B⟩,
            [(t0 + dur A, LoopTask.execFinish A)], [], [(A, t0)], [A]⟩ :
            SimConfig) =
          simRun dur 0 (simStep dur ⟨⟨true, t0, some B⟩,
            [(t0 + dur A, LoopTask.execFinish A)], [], [(A, t0)], [A]⟩) := rfl
      rw [s3, e3]
      rfl
    rw [show 6 + n = 3 + (3 + n) from by omega, simRun_add dur 3 (3 + n), hhead,
      coalescerTail dur B t0 (t0 + dur A + waitTime) [(A, t0)] hB hBne n]
    rfl

/-- C4 witness: a 1000ms downstream call with the second trigger 100ms in;
the queued input is replayed at 1400ms. -/
theorem c4_amended_witness :
    (simRun (fun _ => 1000) (6 + 0) (initConfig
        [⟨0, "a", TriggerMode.normal⟩, ⟨0 + 100, "b", TriggerMode.normal⟩])).calls =
      [("a", 0), ("b", 0 + 1000 + waitTime)] :=
  (c4_amended ("a") ("b") 0 100 (fun _ => 1000) (by decide) (by decide) (by decide)
    (by decide) (by decide) 0).2

/-- C4, counterexample to the latency bound: with a 1000ms downstream call
started at t=0 and a second trigger at t=100, the queued input is only
processed at t=1400 — 1300ms after it was queued, exceeding the wait
window W=400ms. -/
theorem c4_counterexample :
    (simRun (fun _ => 1000) 6 (initConfig
        [⟨0, "a", TriggerMode.normal⟩, ⟨100, "b", TriggerMode.normal⟩])).calls =
      [("a", 0), ("b", 1400)] ∧
    waitTime < 1400 - 100 := by
  exact ⟨by decide, by decide⟩

end VoiceChat
